import Mathlib

/-!
# Verification of the emmental logging manager and accuracy/F1 metric combiner

Shallow embedding of `src/emmental/logging/logging_manager.py` and
`src/emmental/metrics/accuracy_f1.py`.

Modelling conventions:
* Python numbers (int and float) are embedded as rationals (`ℚ`); integer-only
  fields keep an `ℤ` embedding where the source never mixes them with floats.
* The global `Meta.config` read in `LoggingManager.__init__` is an explicit
  `Config` record.
* Exceptions (`ValueError`, `AttributeError`) become `Except String`.
* The external writer / checkpointer collaborators are opaque: the writer is an
  enum plus an emission log, the checkpointer is a `load_best` function plus a
  boolean recording that `clear()` was called.
* The rehydration `while` loops of `__init__` become the well-founded recursion
  `whileGe`; its guard additionally requires the subtracted threshold to be
  positive (in Python a non-positive threshold would make the loop diverge, so
  the guarded function agrees with the source wherever the source terminates).
-/

namespace Emmental

/-- The configured log writer backend (`LogWriter` / `TensorBoardWriter`). -/
inductive Writer where
  | json
  | tensorboard
deriving DecidableEq

/-- The slice of the global `Meta.config` read by `LoggingManager.__init__`.
`meta_config.verbose` only controls informational logging and is omitted. -/
structure Config where
  counter_unit : String
  evaluation_freq : ℚ
  checkpointing : Bool
  checkpoint_freq : ℚ
  writer : Option String
deriving DecidableEq

/-- Python `int()` truncation toward zero, used for
`int(checkpoint_freq)` in `__init__`. -/
def pyInt (q : ℚ) : ℤ := if 0 ≤ q then ⌊q⌋ else ⌈q⌉

/-- Loop `while x >= d: x -= d` from the rehydration code of `__init__`.
Guarded by `0 < d` so the function is total (the Python loop diverges
for `d ≤ 0 ≤ x`; elsewhere the two agree). -/
def whileGe (x d : ℚ) : ℚ :=
  if h : 0 < d ∧ d ≤ x then whileGe (x - d) d else x
termination_by (⌊x / d⌋).toNat
decreasing_by
  have hd := h.1
  have hx := h.2
  have h1 : (1 : ℚ) ≤ x / d := (one_le_div hd).mpr hx
  have hfloor : (1 : ℤ) ≤ ⌊x / d⌋ := by exact_mod_cast Int.le_floor.mpr (by exact_mod_cast h1)
  have hsub : (x - d) / d = x / d - 1 := by
    rw [sub_div, div_self (ne_of_gt hd)]
  rw [hsub]
  have : ⌊x / d - (1 : ℚ)⌋ = ⌊x / d⌋ - 1 := by
    exact_mod_cast Int.floor_sub_int (x / d) 1
  rw [this]
  omega

/-- The mutable state of `LoggingManager`. -/
structure LoggingManager where
  n_batches_per_epoch : ℤ
  counter_unit : String
  evaluation_freq : ℚ
  checkpointing : Bool
  checkpointing_freq : ℤ
  sample_count : ℚ
  sample_total : ℚ
  batch_count : ℚ
  batch_total : ℚ
  epoch_count : ℚ
  epoch_total : ℚ
  unit_count : ℚ
  unit_total : ℚ
  trigger_count : ℤ
  writer : Option Writer
deriving DecidableEq

/-- Writer selection at the end of `__init__`: `None`, `"json"`,
`"tensorboard"`, otherwise `ValueError`. -/
def parseWriter (writer_opt : Option String) : Except String (Option Writer) :=
  match writer_opt with
  | none => .ok none
  | some s =>
      if s = "json" then .ok (some Writer.json)
      else if s = "tensorboard" then .ok (some Writer.tensorboard)
      else .error ("Unrecognized writer option " ++ s)

/-- The state built by a successful `LoggingManager.__init__` run:
counters zeroed, resumed `batch_count` / `epoch_count` normalized by the
rehydration loops, totals keeping the resumed values. -/
def initState (cfg : Config) (n_batches_per_epoch epoch_count batch_count : ℤ)
    (w : Option Writer) : LoggingManager :=
  let f := cfg.evaluation_freq
  let n : ℚ := n_batches_per_epoch
  let bc : ℚ := batch_count
  let bc1 : ℚ :=
    if bc ≠ 0 then
      if cfg.counter_unit = "batch" then whileGe bc f
      else if cfg.counter_unit = "epoch" then whileGe bc (f * n)
      else bc
    else bc
  let ec : ℚ := epoch_count
  let ec1 : ℚ :=
    if ec ≠ 0 then
      if cfg.counter_unit = "epoch" then whileGe ec f
      else if cfg.counter_unit = "batch" then whileGe ec (f / n)
      else ec
    else ec
  { n_batches_per_epoch := n_batches_per_epoch
    counter_unit := cfg.counter_unit
    evaluation_freq := f
    checkpointing := cfg.checkpointing
    checkpointing_freq := if cfg.checkpointing then pyInt cfg.checkpoint_freq else 0
    sample_count := 0
    sample_total := 0
    batch_count := bc1
    batch_total := bc
    epoch_count := ec1
    epoch_total := ec
    unit_count := 0
    unit_total := 0
    trigger_count := 0
    writer := w }

/-- Constructor `LoggingManager.__init__`: validates `counter_unit` and the writer option
(each failing with `ValueError`), otherwise produces `initState`. -/
def init (cfg : Config) (n_batches_per_epoch epoch_count batch_count : ℤ) :
    Except String LoggingManager :=
  if cfg.counter_unit ∉ (["sample", "batch", "epoch"] : List String) then
    .error ("Unrecognized unit: " ++ cfg.counter_unit)
  else
    match parseWriter cfg.writer with
    | .error e => .error e
    | .ok w => .ok (initState cfg n_batches_per_epoch epoch_count batch_count w)

/-- Operation `LoggingManager.update(batch_size)`. -/
def update (m : LoggingManager) (batch_size : ℤ) : LoggingManager :=
  let sample_count := m.sample_count + batch_size
  let sample_total := m.sample_total + batch_size
  let batch_count := m.batch_count + 1
  let batch_total := m.batch_total + 1
  let epoch_count := batch_count / m.n_batches_per_epoch
  let epoch_total := batch_total / m.n_batches_per_epoch
  -- `if counter_unit == "sample": ...` then an independent
  -- `if counter_unit == "batch": ... elif counter_unit == "epoch": ...`
  let uc :=
    if m.counter_unit = "sample" then (sample_count, sample_total)
    else (m.unit_count, m.unit_total)
  let uc1 :=
    if m.counter_unit = "batch" then (batch_count, batch_total)
    else if m.counter_unit = "epoch" then (epoch_count, epoch_total)
    else uc
  { m with
    sample_count := sample_count
    sample_total := sample_total
    batch_count := batch_count
    batch_total := batch_total
    epoch_count := epoch_count
    epoch_total := epoch_total
    unit_count := uc1.1
    unit_total := uc1.2 }

/-- Operation `LoggingManager.reset()`. -/
def reset (m : LoggingManager) : LoggingManager :=
  { m with sample_count := 0, batch_count := 0, epoch_count := 0, unit_count := 0 }

/-- Operation `LoggingManager.trigger_evaluation()`: returns the flag and the
post-call state. -/
def triggerEvaluation (m : LoggingManager) : Bool × LoggingManager :=
  if m.evaluation_freq ≤ m.unit_count then
    (true, reset { m with trigger_count := m.trigger_count + 1 })
  else
    (false, m)

/-- Operation `LoggingManager.trigger_checkpointing()`: returns the flag and the
post-call state. -/
def triggerCheckpointing (m : LoggingManager) : Bool × LoggingManager :=
  if !m.checkpointing then (false, m)
  else if m.checkpointing_freq ≤ m.trigger_count then
    (true, { m with trigger_count := 0 })
  else
    (false, m)

/-- Operation `LoggingManager.write_log(metric_dict)`: returns the list of
`(name, value, step)` triples emitted through `writer.add_scalar`.
With no writer the first `add_scalar` call raises `AttributeError`;
an empty dict never reaches that call. -/
def writeLog (m : LoggingManager) (metric_dict : List (String × ℚ)) :
    Except String (List (String × ℚ × ℚ)) :=
  let log_unit :=
    if m.counter_unit = "epoch" then m.unit_total * m.n_batches_per_epoch
    else m.unit_total
  match m.writer with
  | none =>
      if metric_dict.isEmpty then .ok []
      else .error "AttributeError: NoneType object has no attribute add_scalar"
  | some _ => .ok (metric_dict.map fun p => (p.1, p.2, log_unit))

/-- Operation `LoggingManager.close(model)`: `self.writer.close()` is called
unconditionally (an `AttributeError` when no writer is configured), then with
checkpointing enabled the checkpointer reloads the best model and is cleared.
The checkpointer collaborator is the abstract `load_best` function; the
returned boolean records whether `checkpointer.clear()` was called. -/
def close {α : Type} (m : LoggingManager) (load_best : α → α) (model : α) :
    Except String (α × Bool) :=
  match m.writer with
  | none => .error "AttributeError: NoneType object has no attribute close"
  | some _ =>
      if m.checkpointing then .ok (load_best model, true)
      else .ok (model, false)

/-- Folding a whole sequence of `update` calls. -/
def updates (m : LoggingManager) (sizes : List ℤ) : LoggingManager :=
  sizes.foldl update m

/-- Floor-modulo on rationals: the value `whileGe` computes on nonnegative
inputs with a positive threshold. -/
def qmod (x d : ℚ) : ℚ := x - d * ⌊x / d⌋

/-- A sample constructed-like state used to instantiate universally
quantified theorems: counter unit `batch`, evaluation frequency 5,
six batches of ten samples seen since the last trigger. -/
def mgrBatch6 : LoggingManager :=
  { n_batches_per_epoch := 10
    counter_unit := "batch"
    evaluation_freq := 5
    checkpointing := true
    checkpointing_freq := 2
    sample_count := 60
    sample_total := 60
    batch_count := 6
    batch_total := 6
    epoch_count := 6 / 10
    epoch_total := 6 / 10
    unit_count := 6
    unit_total := 6
    trigger_count := 3
    writer := some Writer.json }

/-- A sample configuration: counter unit `batch`, evaluation frequency 5,
no checkpointing, no writer. -/
def cfgBatch : Config :=
  { counter_unit := "batch"
    evaluation_freq := 5
    checkpointing := false
    checkpoint_freq := 1
    writer := none }

/-- The invariant of claim C3: `unit_count` / `unit_total` mirror the pair
selected by `counter_unit`. -/
def UnitSync (m : LoggingManager) : Prop :=
  (m.counter_unit = "sample" →
    m.unit_count = m.sample_count ∧ m.unit_total = m.sample_total) ∧
  (m.counter_unit = "batch" →
    m.unit_count = m.batch_count ∧ m.unit_total = m.batch_total) ∧
  (m.counter_unit = "epoch" →
    m.unit_count = m.epoch_count ∧ m.unit_total = m.epoch_total)

/-- States reachable as claim C3 quantifies: any successful construction
(resumed counts included) followed by any sequence of `update`,
`trigger_evaluation`, `trigger_checkpointing` calls. -/
inductive Reachable : LoggingManager → Prop where
  | construct (cfg : Config) (n e b : ℤ) (m : LoggingManager) :
      init cfg n e b = Except.ok m → Reachable m
  | step_update (m : LoggingManager) (b : ℤ) :
      Reachable m → Reachable (update m b)
  | step_eval (m : LoggingManager) :
      Reachable m → Reachable (triggerEvaluation m).2
  | step_ckpt (m : LoggingManager) :
      Reachable m → Reachable (triggerCheckpointing m).2

/-- States reachable when every construction resumes at zero counts —
the reachable set on which the C3 invariant actually holds. -/
inductive ReachableZero : LoggingManager → Prop where
  | construct (cfg : Config) (n : ℤ) (m : LoggingManager) :
      init cfg n 0 0 = Except.ok m → ReachableZero m
  | step_update (m : LoggingManager) (b : ℤ) :
      ReachableZero m → ReachableZero (update m b)
  | step_eval (m : LoggingManager) :
      ReachableZero m → ReachableZero (triggerEvaluation m).2
  | step_ckpt (m : LoggingManager) :
      ReachableZero m → ReachableZero (triggerCheckpointing m).2

/-- A state with counter unit `epoch`: 10 batches seen, 4 batches per epoch,
so `unit_total = epoch_total = 5/2`. -/
def mgrEpoch : LoggingManager :=
  { n_batches_per_epoch := 4
    counter_unit := "epoch"
    evaluation_freq := 1
    checkpointing := false
    checkpointing_freq := 0
    sample_count := 0
    sample_total := 100
    batch_count := 2
    batch_total := 10
    epoch_count := 1 / 2
    epoch_total := 5 / 2
    unit_count := 1 / 2
    unit_total := 5 / 2
    trigger_count := 0
    writer := some Writer.tensorboard }

/-- A Python metric dictionary: insertion-ordered keys mapped to floats. -/
abbrev PyDict := List (String × ℚ)

/-- Python `d[k] = v`: replace the value at an existing key in place,
otherwise append the new entry at the end. -/
def dictSet : PyDict → String → ℚ → PyDict
  | [], k, v => [(k, v)]
  | p :: rest, k, v => if p.1 = k then (k, v) :: rest else p :: dictSet rest k v

/-- Python `d.update(e)`: assign every entry of `e` into `d` in order. -/
def dictUpdate (d e : PyDict) : PyDict :=
  e.foldl (fun acc p => dictSet acc p.1 p.2) d

/-- Python `d[k]` lookup. -/
def dictGet : PyDict → String → Option ℚ
  | [], _ => none
  | p :: rest, k => if p.1 = k then some p.2 else dictGet rest k

/-- The keys of a dictionary. -/
def dictKeys (d : PyDict) : List String := d.map Prod.fst

/-- Function `accuracy_f1_scorer` from `src/emmental/metrics/accuracy_f1.py`: merges
the two collaborator scorers' outputs into a fresh dict and adds the entry
`accuracy_f1 = np.mean([metrics["accuracy"], metrics["f1"]])`; the lookups
raise `KeyError` when a scorer did not produce its entry. -/
def accuracy_f1_scorer {γ π ρ : Type} (accuracy_scorer f1_scorer : γ → π → ρ → PyDict)
    (golds : γ) (probs : π) (preds : ρ) : Except String PyDict :=
  let metrics := dictUpdate (dictUpdate [] (accuracy_scorer golds probs preds))
    (f1_scorer golds probs preds)
  match dictGet metrics "accuracy", dictGet metrics "f1" with
  | some a, some f => .ok (dictSet metrics "accuracy_f1" ((a + f) / 2))
  | _, _ => .error "KeyError"

lemma whileGe_of_not {x d : ℚ} (h : ¬(0 < d ∧ d ≤ x)) : whileGe x d = x := by
  rw [whileGe]
  simp [h]

lemma whileGe_step {x d : ℚ} (h : 0 < d ∧ d ≤ x) :
    whileGe x d = whileGe (x - d) d := by
  rw [whileGe]
  simp [h]

lemma floor_sub_self_div {x d : ℚ} (hd : 0 < d) :
    ⌊(x - d) / d⌋ = ⌊x / d⌋ - 1 := by
  have hsub : (x - d) / d = x / d - 1 := by
    rw [sub_div, div_self (ne_of_gt hd)]
  rw [hsub]
  exact_mod_cast Int.floor_sub_int (x / d) 1

lemma whileGe_eq (x d : ℚ) : 0 < d → 0 ≤ x → whileGe x d = qmod x d := by
  induction x, d using whileGe.induct with
  | case1 x d h ih =>
      intro hd hx
      rw [whileGe_step h, ih hd (by linarith [h.2])]
      unfold qmod
      rw [floor_sub_self_div hd]
      push_cast
      ring
  | case2 x d h =>
      intro hd hx
      rw [whileGe_of_not h]
      have hlt : x < d := by
        by_contra hge
        exact h ⟨hd, le_of_not_lt hge⟩
      have h0 : ⌊x / d⌋ = 0 := by
        apply Int.floor_eq_zero_iff.mpr
        constructor
        · positivity
        · rw [div_lt_one hd] at *
          exact hlt
      unfold qmod
      rw [h0]
      ring

lemma qmod_eq_fract {x d : ℚ} (hd : 0 < d) : qmod x d = d * Int.fract (x / d) := by
  unfold qmod Int.fract
  rw [mul_sub, mul_div_cancel₀ x (ne_of_gt hd)]

lemma qmod_nonneg {x d : ℚ} (hd : 0 < d) : 0 ≤ qmod x d := by
  rw [qmod_eq_fract hd]
  exact mul_nonneg (le_of_lt hd) (Int.fract_nonneg _)

lemma qmod_lt {x d : ℚ} (hd : 0 < d) : qmod x d < d := by
  rw [qmod_eq_fract hd]
  calc d * Int.fract (x / d) < d * 1 := by
        exact mul_lt_mul_of_pos_left (Int.fract_lt_one _) hd
    _ = d := mul_one d

lemma parseWriter_some (s : String) :
    parseWriter (some s) =
      if s = "json" then .ok (some Writer.json)
      else if s = "tensorboard" then .ok (some Writer.tensorboard)
      else .error ("Unrecognized writer option " ++ s) := rfl

/-- Successful construction means a valid counter unit, a parsed writer, and
the `initState` record. -/
lemma init_ok_cases {cfg : Config} {n e b : ℤ} {m : LoggingManager}
    (h : init cfg n e b = Except.ok m) :
    cfg.counter_unit ∈ (["sample", "batch", "epoch"] : List String) ∧
    ∃ w, parseWriter cfg.writer = .ok w ∧ m = initState cfg n e b w := by
  unfold init at h
  split at h
  · exact absurd h (by simp)
  · next hmem =>
      rw [not_not] at hmem
      refine ⟨hmem, ?_⟩
      cases hp : parseWriter cfg.writer with
      | error e => rw [hp] at h; exact absurd h (by simp)
      | ok w =>
          rw [hp] at h
          simp only [Except.ok.injEq] at h
          exact ⟨w, rfl, h.symm⟩

/-- Fields of a freshly constructed state. -/
lemma initState_fields (cfg : Config) (n e b : ℤ) (w : Option Writer) :
    (initState cfg n e b w).unit_count = 0 ∧
    (initState cfg n e b w).unit_total = 0 ∧
    (initState cfg n e b w).sample_count = 0 ∧
    (initState cfg n e b w).sample_total = 0 ∧
    (initState cfg n e b w).batch_total = b ∧
    (initState cfg n e b w).epoch_total = e ∧
    (initState cfg n e b w).trigger_count = 0 ∧
    (initState cfg n e b w).evaluation_freq = cfg.evaluation_freq ∧
    (initState cfg n e b w).counter_unit = cfg.counter_unit ∧
    (initState cfg n e b w).n_batches_per_epoch = n ∧
    (initState cfg n e b w).checkpointing = cfg.checkpointing ∧
    (initState cfg n e b w).writer = w := by
  unfold initState
  refine ⟨rfl, rfl, rfl, rfl, rfl, rfl, rfl, rfl, rfl, rfl, rfl, rfl⟩

/-- C1: `trigger_evaluation` returns true iff `unit_count >= evaluation_freq`;
on true it increments `trigger_count` and zeroes the four since-last counters,
leaving every other field (in particular all totals) unchanged; on false the
state is untouched. -/
theorem trigger_evaluation_spec (m : LoggingManager) :
    ((triggerEvaluation m).1 = true ↔ m.unit_count ≥ m.evaluation_freq) ∧
    ((triggerEvaluation m).1 = true →
      (triggerEvaluation m).2 =
        { m with
          trigger_count := m.trigger_count + 1
          sample_count := 0
          batch_count := 0
          epoch_count := 0
          unit_count := 0 }) ∧
    ((triggerEvaluation m).1 = false → (triggerEvaluation m).2 = m) := by
  unfold triggerEvaluation reset
  by_cases h : m.evaluation_freq ≤ m.unit_count <;> simp [h, ge_iff_le]

/-- Witness for C1 at a concrete state with `unit_count = 6 ≥ 5`. -/
theorem trigger_evaluation_spec_witness :
    ((triggerEvaluation mgrBatch6).1 = true ↔
        mgrBatch6.unit_count ≥ mgrBatch6.evaluation_freq) ∧
    ((triggerEvaluation mgrBatch6).1 = true →
      (triggerEvaluation mgrBatch6).2 =
        { mgrBatch6 with
          trigger_count := mgrBatch6.trigger_count + 1
          sample_count := 0
          batch_count := 0
          epoch_count := 0
          unit_count := 0 }) ∧
    ((triggerEvaluation mgrBatch6).1 = false →
      (triggerEvaluation mgrBatch6).2 = mgrBatch6) :=
  trigger_evaluation_spec mgrBatch6

/-- C5: with checkpointing disabled `trigger_checkpointing` is a no-op
returning false for every `trigger_count`; with checkpointing enabled it
returns true iff `trigger_count >= checkpointing_freq`, resetting only
`trigger_count` exactly on true. -/
theorem trigger_checkpointing_spec (m : LoggingManager) :
    (m.checkpointing = false → triggerCheckpointing m = (false, m)) ∧
    (m.checkpointing = true →
      (((triggerCheckpointing m).1 = true ↔ m.trigger_count ≥ m.checkpointing_freq) ∧
       ((triggerCheckpointing m).1 = true →
          (triggerCheckpointing m).2 = { m with trigger_count := 0 }) ∧
       ((triggerCheckpointing m).1 = false → (triggerCheckpointing m).2 = m))) := by
  unfold triggerCheckpointing
  cases hc : m.checkpointing with
  | false => simp
  | true =>
      by_cases h : m.checkpointing_freq ≤ m.trigger_count <;> simp [h, ge_iff_le]

/-- Witness for C5 at a concrete enabled state with `trigger_count = 3 ≥ 2`. -/
theorem trigger_checkpointing_spec_witness :
    (mgrBatch6.checkpointing = false →
      triggerCheckpointing mgrBatch6 = (false, mgrBatch6)) ∧
    (mgrBatch6.checkpointing = true →
      (((triggerCheckpointing mgrBatch6).1 = true ↔
          mgrBatch6.trigger_count ≥ mgrBatch6.checkpointing_freq) ∧
       ((triggerCheckpointing mgrBatch6).1 = true →
          (triggerCheckpointing mgrBatch6).2 = { mgrBatch6 with trigger_count := 0 }) ∧
       ((triggerCheckpointing mgrBatch6).1 = false →
          (triggerCheckpointing mgrBatch6).2 = mgrBatch6))) :=
  trigger_checkpointing_spec mgrBatch6

/-- C6: construction succeeds iff the configured counter unit is one of
`sample`/`batch`/`epoch` and the writer selector is `None`, `json` or
`tensorboard`; otherwise it raises `ValueError`. -/
theorem init_ok_iff (cfg : Config) (n e b : ℤ) :
    (∃ m, init cfg n e b = Except.ok m) ↔
      (cfg.counter_unit ∈ (["sample", "batch", "epoch"] : List String) ∧
       (cfg.writer = none ∨ cfg.writer = some "json" ∨
        cfg.writer = some "tensorboard")) := by
  constructor
  · intro ⟨m, hm⟩
    obtain ⟨hmem, w, hw, _⟩ := init_ok_cases hm
    refine ⟨hmem, ?_⟩
    cases hws : cfg.writer with
    | none => left; rfl
    | some s =>
        rw [hws, parseWriter_some] at hw
        by_cases hj : s = "json"
        · right; left; simp [hj]
        · by_cases ht : s = "tensorboard"
          · right; right; simp [ht]
          · rw [if_neg hj, if_neg ht] at hw
            exact absurd hw (by simp)
  · intro ⟨hmem, hw⟩
    unfold init
    rw [if_neg (not_not_intro hmem)]
    have : ∃ w, parseWriter cfg.writer = .ok w := by
      rcases hw with h | h | h <;> rw [h] <;> unfold parseWriter
      · exact ⟨none, rfl⟩
      · exact ⟨some Writer.json, by simp⟩
      · exact ⟨some Writer.tensorboard, by simp⟩
    obtain ⟨w, hpw⟩ := this
    rw [hpw]
    exact ⟨_, rfl⟩

/-- Witness for C6: a valid configuration on the left-to-right direction
and for the stated equivalence at a concrete configuration. -/
theorem init_ok_iff_witness :
    (∃ m, init cfgBatch 10 0 0 = Except.ok m) ↔
      (cfgBatch.counter_unit ∈ (["sample", "batch", "epoch"] : List String) ∧
       (cfgBatch.writer = none ∨ cfgBatch.writer = some "json" ∨
        cfgBatch.writer = some "tensorboard")) :=
  init_ok_iff cfgBatch 10 0 0

lemma qmod_zero (d : ℚ) : qmod 0 d = 0 := by
  unfold qmod
  simp

lemma guard_whileGe_eq {x d : ℚ} (hd : 0 < d) (hx : 0 ≤ x) :
    (if x ≠ 0 then whileGe x d else x) = qmod x d := by
  by_cases h0 : x = 0
  · rw [if_neg (not_not_intro h0), h0, qmod_zero]
  · rw [if_pos h0]
    exact whileGe_eq x d hd hx

lemma initState_batch_count (cfg : Config) (n e b : ℤ) (w : Option Writer) :
    (initState cfg n e b w).batch_count =
      (if (b : ℚ) ≠ 0 then
        if cfg.counter_unit = "batch" then whileGe b cfg.evaluation_freq
        else if cfg.counter_unit = "epoch" then whileGe b (cfg.evaluation_freq * n)
        else (b : ℚ)
      else (b : ℚ)) := rfl

lemma initState_epoch_count (cfg : Config) (n e b : ℤ) (w : Option Writer) :
    (initState cfg n e b w).epoch_count =
      (if (e : ℚ) ≠ 0 then
        if cfg.counter_unit = "epoch" then whileGe e cfg.evaluation_freq
        else if cfg.counter_unit = "batch" then whileGe e (cfg.evaluation_freq / n)
        else (e : ℚ)
      else (e : ℚ)) := rfl

/-- C2: after construction resumed at nonnegative `batch_count` / `epoch_count`
with a positive evaluation frequency, each since-last counter holds the resumed
value reduced modulo the evaluation threshold in its native unit
(`evaluation_freq` batches or `evaluation_freq * n_batches_per_epoch` batches,
`evaluation_freq` epochs or `evaluation_freq / n_batches_per_epoch` epochs),
hence lies below that threshold, while `batch_total` / `epoch_total` keep the
full resumed values. -/
theorem init_rehydration_mod (cfg : Config) (n e b : ℤ) (m : LoggingManager)
    (hok : init cfg n e b = Except.ok m) (hf : 0 < cfg.evaluation_freq)
    (hn : (0 : ℤ) < n) (hb : 0 ≤ b) (he : 0 ≤ e) :
    (cfg.counter_unit = "batch" →
      m.batch_count = qmod b cfg.evaluation_freq ∧
      m.batch_count < cfg.evaluation_freq ∧
      m.epoch_count = qmod e (cfg.evaluation_freq / n) ∧
      m.epoch_count < cfg.evaluation_freq / n) ∧
    (cfg.counter_unit = "epoch" →
      m.batch_count = qmod b (cfg.evaluation_freq * n) ∧
      m.batch_count < cfg.evaluation_freq * n ∧
      m.epoch_count = qmod e cfg.evaluation_freq ∧
      m.epoch_count < cfg.evaluation_freq) ∧
    m.batch_total = b ∧ m.epoch_total = e := by
  obtain ⟨-, w, -, rfl⟩ := init_ok_cases hok
  have hnq : (0 : ℚ) < (n : ℚ) := by exact_mod_cast hn
  have hbq : (0 : ℚ) ≤ (b : ℚ) := by exact_mod_cast hb
  have heq : (0 : ℚ) ≤ (e : ℚ) := by exact_mod_cast he
  refine ⟨?_, ?_, rfl, rfl⟩
  · intro hu
    have hdiv : 0 < cfg.evaluation_freq / (n : ℚ) := div_pos hf hnq
    constructor
    · rw [initState_batch_count, hu, if_pos rfl]
      exact guard_whileGe_eq hf hbq
    refine ⟨?_, ?_, ?_⟩
    · rw [initState_batch_count, hu, if_pos rfl, guard_whileGe_eq hf hbq]
      exact qmod_lt hf
    · rw [initState_epoch_count, hu]
      rw [if_neg (by decide : ¬("batch" : String) = "epoch"), if_pos rfl]
      exact guard_whileGe_eq hdiv heq
    · rw [initState_epoch_count, hu]
      rw [if_neg (by decide : ¬("batch" : String) = "epoch"), if_pos rfl,
        guard_whileGe_eq hdiv heq]
      exact qmod_lt hdiv
  · intro hu
    have hmul : 0 < cfg.evaluation_freq * (n : ℚ) := mul_pos hf hnq
    refine ⟨?_, ?_, ?_, ?_⟩
    · rw [initState_batch_count, hu]
      rw [if_neg (by decide : ¬("epoch" : String) = "batch"), if_pos rfl]
      exact guard_whileGe_eq hmul hbq
    · rw [initState_batch_count, hu]
      rw [if_neg (by decide : ¬("epoch" : String) = "batch"), if_pos rfl,
        guard_whileGe_eq hmul hbq]
      exact qmod_lt hmul
    · rw [initState_epoch_count, hu, if_pos rfl]
      exact guard_whileGe_eq hf heq
    · rw [initState_epoch_count, hu, if_pos rfl, guard_whileGe_eq hf heq]
      exact qmod_lt hf

/-- Witness for C2: counter unit `batch`, evaluation frequency 5, 4 batches
per epoch, resumed at `epoch_count = 2`, `batch_count = 13`
(so `batch_count` rehydrates to `13 mod 5 = 3`). -/
theorem init_rehydration_mod_witness :
    (cfgBatch.counter_unit = "batch" →
      (initState cfgBatch 4 2 13 none).batch_count = qmod 13 cfgBatch.evaluation_freq ∧
      (initState cfgBatch 4 2 13 none).batch_count < cfgBatch.evaluation_freq ∧
      (initState cfgBatch 4 2 13 none).epoch_count = qmod 2 (cfgBatch.evaluation_freq / 4) ∧
      (initState cfgBatch 4 2 13 none).epoch_count < cfgBatch.evaluation_freq / 4) ∧
    (cfgBatch.counter_unit = "epoch" →
      (initState cfgBatch 4 2 13 none).batch_count = qmod 13 (cfgBatch.evaluation_freq * 4) ∧
      (initState cfgBatch 4 2 13 none).batch_count < cfgBatch.evaluation_freq * 4 ∧
      (initState cfgBatch 4 2 13 none).epoch_count = qmod 2 cfgBatch.evaluation_freq ∧
      (initState cfgBatch 4 2 13 none).epoch_count < cfgBatch.evaluation_freq) ∧
    (initState cfgBatch 4 2 13 none).batch_total = 13 ∧
    (initState cfgBatch 4 2 13 none).epoch_total = 2 :=
  init_rehydration_mod cfgBatch 4 2 13 _ rfl (by norm_num [cfgBatch]) (by norm_num)
    (by norm_num) (by norm_num)

/-- C10: immediately after any successful construction (also when resuming
from nonzero counts) `unit_count` and `unit_total` are 0; hence with a
positive evaluation frequency a `trigger_evaluation` call made before the
first `update` returns false and leaves the state unchanged. -/
theorem init_unit_zero_no_trigger (cfg : Config) (n e b : ℤ) (m : LoggingManager)
    (hok : init cfg n e b = Except.ok m) :
    m.unit_count = 0 ∧ m.unit_total = 0 ∧
    (0 < cfg.evaluation_freq → triggerEvaluation m = (false, m)) := by
  obtain ⟨-, w, -, rfl⟩ := init_ok_cases hok
  obtain ⟨huc, hut, -, -, -, -, -, hef, -⟩ := initState_fields cfg n e b w
  refine ⟨huc, hut, fun hpos => ?_⟩
  unfold triggerEvaluation
  rw [huc, hef]
  rw [if_neg (not_le_of_lt hpos)]

/-- Witness for C10: concrete construction (evaluation every 5 batches,
no writer) resumed at zero counts. -/
theorem init_unit_zero_no_trigger_witness :
    ∃ m, init cfgBatch 10 0 0 = Except.ok m ∧
      (m.unit_count = 0 ∧ m.unit_total = 0 ∧
       (0 < cfgBatch.evaluation_freq → triggerEvaluation m = (false, m))) := by
  refine ⟨initState cfgBatch 10 0 0 none, rfl, ?_⟩
  exact init_unit_zero_no_trigger cfgBatch 10 0 0 _ rfl

lemma update_sample_total (m : LoggingManager) (b : ℤ) :
    (update m b).sample_total = m.sample_total + b := rfl

lemma update_batch_total (m : LoggingManager) (b : ℤ) :
    (update m b).batch_total = m.batch_total + 1 := rfl

lemma update_epoch_total (m : LoggingManager) (b : ℤ) :
    (update m b).epoch_total = (m.batch_total + 1) / m.n_batches_per_epoch := rfl

lemma update_n_batches (m : LoggingManager) (b : ℤ) :
    (update m b).n_batches_per_epoch = m.n_batches_per_epoch := rfl

lemma updates_n_batches (l : List ℤ) (m : LoggingManager) :
    (updates m l).n_batches_per_epoch = m.n_batches_per_epoch := by
  induction l generalizing m with
  | nil => rfl
  | cons x xs ih => exact (ih (update m x)).trans rfl

lemma updates_sample_total (l : List ℤ) (m : LoggingManager) :
    (updates m l).sample_total = m.sample_total + ((l.sum : ℤ) : ℚ) := by
  induction l generalizing m with
  | nil => simp [updates]
  | cons x xs ih =>
      have : updates m (x :: xs) = updates (update m x) xs := rfl
      rw [this, ih, update_sample_total, List.sum_cons]
      push_cast
      ring

lemma updates_batch_total (l : List ℤ) (m : LoggingManager) :
    (updates m l).batch_total = m.batch_total + (l.length : ℚ) := by
  induction l generalizing m with
  | nil => simp [updates]
  | cons x xs ih =>
      have : updates m (x :: xs) = updates (update m x) xs := rfl
      rw [this, ih, update_batch_total, List.length_cons]
      push_cast
      ring

lemma updates_epoch_div (l : List ℤ) (m : LoggingManager)
    (h : m.epoch_total = m.batch_total / m.n_batches_per_epoch) :
    (updates m l).epoch_total = (updates m l).batch_total / (updates m l).n_batches_per_epoch := by
  induction l generalizing m with
  | nil => exact h
  | cons x xs ih =>
      have hstep : updates m (x :: xs) = updates (update m x) xs := rfl
      rw [hstep]
      exact ih (update m x) rfl

/-- C4: starting from a construction resumed at zero counts, after the calls
`update b₁, ..., update b_N` (nonnegative batch sizes) the state has
`sample_total = b₁ + ... + b_N`, `batch_total = N` and
`epoch_total = batch_total / n_batches_per_epoch` (exact rational division by
the positive batch count per epoch). -/
theorem updates_totals (cfg : Config) (n : ℤ) (m₀ : LoggingManager) (l : List ℤ)
    (hok : init cfg n 0 0 = Except.ok m₀) (hn : (0 : ℤ) < n)
    (hpos : ∀ x ∈ l, 0 ≤ x) :
    (updates m₀ l).sample_total = ((l.sum : ℤ) : ℚ) ∧
    (updates m₀ l).batch_total = (l.length : ℚ) ∧
    (updates m₀ l).epoch_total = (updates m₀ l).batch_total / (n : ℚ) := by
  obtain ⟨-, w, -, rfl⟩ := init_ok_cases hok
  obtain ⟨-, -, -, hst, hbt, het, -, -, -, hnb, -⟩ := initState_fields cfg n 0 0 w
  refine ⟨?_, ?_, ?_⟩
  · rw [updates_sample_total, hst]
    ring
  · rw [updates_batch_total, hbt]
    push_cast
    ring
  · have hdiv := updates_epoch_div l (initState cfg n 0 0 w)
      (by rw [het, hbt, hnb]; push_cast; ring)
    rw [hdiv, updates_n_batches, hnb]

/-- Witness for C4: evaluation every 5 batches, 4 batches per epoch,
batch sizes 2 and 3. -/
theorem updates_totals_witness :
    (updates (initState cfgBatch 4 0 0 none) [2, 3]).sample_total =
        ((([2, 3] : List ℤ).sum : ℤ) : ℚ) ∧
    (updates (initState cfgBatch 4 0 0 none) [2, 3]).batch_total =
        ((([2, 3] : List ℤ).length : ℕ) : ℚ) ∧
    (updates (initState cfgBatch 4 0 0 none) [2, 3]).epoch_total =
        (updates (initState cfgBatch 4 0 0 none) [2, 3]).batch_total / ((4 : ℤ) : ℚ) :=
  updates_totals cfgBatch 4 (initState cfgBatch 4 0 0 none) [2, 3] rfl (by norm_num)
    (by decide)

lemma unitSync_update (m : LoggingManager) (b : ℤ) : UnitSync (update m b) := by
  refine ⟨fun hu => ?_, fun hu => ?_, fun hu => ?_⟩ <;>
  · have hm : m.counter_unit = _ := hu
    simp [update, hm]

lemma unitSync_initState_zero (cfg : Config) (n : ℤ) (w : Option Writer) :
    UnitSync (initState cfg n 0 0 w) := by
  refine ⟨fun _ => ?_, fun _ => ?_, fun _ => ?_⟩ <;>
    simp [initState]

lemma unitSync_triggerEvaluation {m : LoggingManager} (h : UnitSync m) :
    UnitSync (triggerEvaluation m).2 := by
  unfold triggerEvaluation reset
  by_cases hle : m.evaluation_freq ≤ m.unit_count
  · rw [if_pos hle]
    obtain ⟨h1, h2, h3⟩ := h
    refine ⟨fun hu => ⟨rfl, (h1 hu).2⟩, fun hu => ⟨rfl, (h2 hu).2⟩,
      fun hu => ⟨rfl, (h3 hu).2⟩⟩
  · rw [if_neg hle]
    exact h

lemma unitSync_triggerCheckpointing {m : LoggingManager} (h : UnitSync m) :
    UnitSync (triggerCheckpointing m).2 := by
  unfold triggerCheckpointing
  cases m.checkpointing
  · exact h
  · by_cases hle : m.checkpointing_freq ≤ m.trigger_count
    · rw [if_pos hle]
      obtain ⟨h1, h2, h3⟩ := h
      exact ⟨fun hu => h1 hu, fun hu => h2 hu, fun hu => h3 hu⟩
    · rw [if_neg hle]
      exact h

/-- C3 (amended): the `unit_count`/`unit_total` mirroring invariant holds in
every state reachable from a construction resumed at zero counts; after a
construction resumed at a nonzero count it can fail until the first `update`
(see the counterexample), since construction always zeroes `unit_count`. -/
theorem unitSync_reachableZero (m : LoggingManager) (h : ReachableZero m) :
    UnitSync m := by
  induction h with
  | construct cfg n m hok =>
      obtain ⟨-, w, -, rfl⟩ := init_ok_cases hok
      exact unitSync_initState_zero cfg n w
  | step_update m b _ _ => exact unitSync_update m b
  | step_eval m _ ih => exact unitSync_triggerEvaluation ih
  | step_ckpt m _ ih => exact unitSync_triggerCheckpointing ih

/-- Counterexample to C3 as stated: the state constructed with counter unit
`batch`, evaluation frequency 5 and resumed `batch_count = 3` is reachable,
yet has `unit_count = 0 ≠ 3 = batch_count`. -/
theorem unitSync_counterexample : ¬(∀ m, Reachable m → UnitSync m) := by
  intro hall
  have hreach : Reachable (initState cfgBatch 10 0 3 none) :=
    Reachable.construct cfgBatch 10 0 3 _ rfl
  have hsync := hall _ hreach
  have hbc : (initState cfgBatch 10 0 3 none).batch_count = 3 := by
    rw [initState_batch_count]
    have h1 : cfgBatch.counter_unit = "batch" := rfl
    have h2 : cfgBatch.evaluation_freq = 5 := rfl
    rw [h1, h2, if_pos (by norm_num), if_pos rfl]
    rw [whileGe_of_not (by norm_num)]
    norm_num
  have huc : (initState cfgBatch 10 0 3 none).unit_count = 0 := rfl
  have := (hsync.2.1 rfl).1
  rw [huc, hbc] at this
  norm_num at this

/-- Witness for the amended C3 at a concrete reachable state: one update of
batch size 7 after a fresh construction. -/
theorem unitSync_reachableZero_witness :
    UnitSync (update (initState cfgBatch 4 0 0 none) 7) :=
  unitSync_reachableZero _
    (ReachableZero.step_update _ 7 (ReachableZero.construct cfgBatch 4 _ rfl))

/-- C8: with a writer configured, `write_log` emits one
`(name, value, log_unit)` triple per entry, where the step `log_unit` is
`unit_total`, rescaled to `unit_total * n_batches_per_epoch` exactly when the
counter unit is `epoch`. -/
theorem write_log_spec (m : LoggingManager) (metric_dict : List (String × ℚ))
    (w : Writer) (hw : m.writer = some w) :
    writeLog m metric_dict =
      Except.ok (metric_dict.map fun p =>
        (p.1, p.2,
          if m.counter_unit = "epoch" then m.unit_total * (m.n_batches_per_epoch : ℚ)
          else m.unit_total)) := by
  unfold writeLog
  rw [hw]

/-- Witness for C8, realizing the spec example: counter unit `epoch`,
`unit_total = 5/2`, `n_batches_per_epoch = 4` — every metric is emitted with
step value 10. -/
theorem write_log_spec_witness :
    writeLog mgrEpoch [("loss", 1), ("accuracy", 1 / 2)] =
      Except.ok [("loss", 1, 10), ("accuracy", 1 / 2, 10)] := by
  rw [write_log_spec mgrEpoch [("loss", 1), ("accuracy", 1 / 2)] Writer.tensorboard rfl]
  norm_num [mgrEpoch]

/-- Counterexample to C7 as stated: with no writer configured,
`close` hits `self.writer.close()` on `None` and raises `AttributeError`
instead of skipping the writer step and succeeding. -/
theorem close_no_writer_fails :
    close { mgrBatch6 with writer := none } (fun n : ℤ => n + 1) 0 =
      Except.error "AttributeError: NoneType object has no attribute close" := rfl

/-- C7 (amended): with a writer configured, `close` succeeds: with
checkpointing enabled it returns the checkpointer's best-reloaded model and
clears the checkpointer, with checkpointing disabled it returns the input
model unchanged without clearing; with no writer configured it raises
`AttributeError` (the writer step is not skipped). -/
theorem close_spec {α : Type} (m : LoggingManager) (load_best : α → α) (model : α) :
    (m.writer = none →
      close m load_best model =
        Except.error "AttributeError: NoneType object has no attribute close") ∧
    (∀ w, m.writer = some w →
      close m load_best model =
        Except.ok (if m.checkpointing then (load_best model, true)
                   else (model, false))) := by
  unfold close
  constructor
  · intro hw
    rw [hw]
  · intro w hw
    rw [hw]
    cases hcp : m.checkpointing <;> simp

/-- Witness for the amended C7 at a concrete state with a json writer and
checkpointing enabled. -/
theorem close_spec_witness :
    (mgrBatch6.writer = none →
      close mgrBatch6 (fun n : ℤ => n * 2) 5 =
        Except.error "AttributeError: NoneType object has no attribute close") ∧
    (∀ w, mgrBatch6.writer = some w →
      close mgrBatch6 (fun n : ℤ => n * 2) 5 =
        Except.ok (if mgrBatch6.checkpointing then ((5 : ℤ) * 2, true)
                   else (5, false))) :=
  close_spec mgrBatch6 (fun n : ℤ => n * 2) 5

lemma dictGet_dictSet_self (d : PyDict) (k : String) (v : ℚ) :
    dictGet (dictSet d k v) k = some v := by
  induction d with
  | nil => simp [dictSet, dictGet]
  | cons p rest ih =>
      by_cases h : p.1 = k
      · simp [dictSet, dictGet, h]
      · simp [dictSet, dictGet, h, ih]

lemma dictGet_dictSet_ne (d : PyDict) {k k' : String} (v : ℚ) (h : k' ≠ k) :
    dictGet (dictSet d k v) k' = dictGet d k' := by
  induction d with
  | nil => simp [dictSet, dictGet, Ne.symm h]
  | cons p rest ih =>
      by_cases hp : p.1 = k
      · simp [dictSet, dictGet, hp, Ne.symm h]
      · simp [dictSet, dictGet, hp, ih]

lemma dictGet_eq_none (d : PyDict) (k : String) (h : k ∉ dictKeys d) :
    dictGet d k = none := by
  induction d with
  | nil => rfl
  | cons p rest ih =>
      simp only [dictKeys, List.map_cons, List.mem_cons] at h
      push_neg at h
      have hp : ¬p.1 = k := fun hp => h.1 hp.symm
      show (if p.1 = k then some p.2 else dictGet rest k) = none
      rw [if_neg hp]
      exact ih h.2

lemma dictUpdate_cons (d : PyDict) (q : String × ℚ) (e : PyDict) :
    dictUpdate d (q :: e) = dictUpdate (dictSet d q.1 q.2) e := rfl

lemma dictGet_dictUpdate (e : PyDict) (hnd : (dictKeys e).Nodup) :
    ∀ (d : PyDict) (k : String),
      dictGet (dictUpdate d e) k =
        Option.orElse (dictGet e k) (fun _ => dictGet d k) := by
  induction e with
  | nil => intro d k; rfl
  | cons q e' ih =>
      intro d k
      simp only [dictKeys, List.map_cons, List.nodup_cons] at hnd
      rw [dictUpdate_cons, ih hnd.2]
      by_cases hk : q.1 = k
      · have he' : dictGet e' k = none :=
          dictGet_eq_none e' k (by rw [← hk]; exact hnd.1)
        simp [Option.orElse, he', dictGet, hk, dictGet_dictSet_self]
      · rw [dictGet_dictSet_ne d q.2 (fun h => hk h.symm)]
        simp [dictGet, hk]

lemma dictSet_append (d : PyDict) (k : String) (v : ℚ) (h : k ∉ dictKeys d) :
    dictSet d k v = d ++ [(k, v)] := by
  induction d with
  | nil => rfl
  | cons p rest ih =>
      simp only [dictKeys, List.map_cons, List.mem_cons] at h
      push_neg at h
      have hp : ¬p.1 = k := fun hp => h.1 hp.symm
      show (if p.1 = k then (k, v) :: rest else p :: dictSet rest k v) = _
      rw [if_neg hp, ih h.2]
      rfl

lemma dictUpdate_append (e : PyDict) :
    ∀ d : PyDict, (dictKeys e).Nodup → (∀ k ∈ dictKeys e, k ∉ dictKeys d) →
      dictUpdate d e = d ++ e := by
  induction e with
  | nil =>
      intro d _ _
      simp [dictUpdate]
  | cons q e' ih =>
      intro d hnd hdis
      simp only [dictKeys, List.map_cons, List.nodup_cons] at hnd
      have hq : q.1 ∉ dictKeys d := hdis q.1 (by simp [dictKeys])
      rw [dictUpdate_cons, dictSet_append d q.1 q.2 hq]
      have hdis' : ∀ k ∈ dictKeys e', k ∉ dictKeys (d ++ [(q.1, q.2)]) := by
        intro k hke
        simp only [dictKeys, List.map_append, List.mem_append, List.map_cons,
          List.map_nil, List.mem_singleton]
        push_neg
        refine ⟨hdis k (show k ∈ q.1 :: dictKeys e' from List.mem_cons_of_mem _ hke), ?_⟩
        intro hkq
        exact hnd.1 (hkq ▸ hke)
      rw [ih (d ++ [(q.1, q.2)]) hnd.2 hdis']
      rw [List.append_assoc]
      rfl

lemma dictUpdate_nil (e : PyDict) (h : (dictKeys e).Nodup) :
    dictUpdate [] e = e := by
  have := dictUpdate_append e [] h (by intro k _; simp [dictKeys])
  simpa using this

/-- C9: for every `golds`, `probs`, `preds` whose scorer outputs have
well-formed (duplicate-free) keys containing `accuracy` and `f1`,
`accuracy_f1_scorer` returns the merge of the accuracy scorer's output with
the f1 scorer's output — f1 entries overriding accuracy entries on key
collision, as the lookup identity states — extended with the key
`accuracy_f1` mapped to the arithmetic mean `(accuracy + f1) / 2`. -/
theorem accuracy_f1_scorer_spec {γ π ρ : Type}
    (accuracy_scorer f1_scorer : γ → π → ρ → PyDict)
    (golds : γ) (probs : π) (preds : ρ) (a f : ℚ)
    (hndA : (dictKeys (accuracy_scorer golds probs preds)).Nodup)
    (hndF : (dictKeys (f1_scorer golds probs preds)).Nodup)
    (ha : dictGet (dictUpdate (accuracy_scorer golds probs preds)
        (f1_scorer golds probs preds)) "accuracy" = some a)
    (hf : dictGet (dictUpdate (accuracy_scorer golds probs preds)
        (f1_scorer golds probs preds)) "f1" = some f) :
    accuracy_f1_scorer accuracy_scorer f1_scorer golds probs preds =
      Except.ok (dictSet (dictUpdate (accuracy_scorer golds probs preds)
        (f1_scorer golds probs preds)) "accuracy_f1" ((a + f) / 2)) ∧
    (∀ k, dictGet (dictUpdate (accuracy_scorer golds probs preds)
        (f1_scorer golds probs preds)) k =
      Option.orElse (dictGet (f1_scorer golds probs preds) k)
        (fun _ => dictGet (accuracy_scorer golds probs preds) k)) := by
  have hnil : dictUpdate [] (accuracy_scorer golds probs preds) =
      accuracy_scorer golds probs preds := dictUpdate_nil _ hndA
  constructor
  · simp only [accuracy_f1_scorer]
    rw [hnil, ha, hf]
  · exact fun k => dictGet_dictUpdate _ hndF _ k

/-- Witness for C9 on the spec's example shape: golds `[1,0,1,1]`, preds
`[1,0,0,1]`, the accuracy scorer returning `accuracy = 3/4` and the f1 scorer
returning `f1 = 3/5`. -/
theorem accuracy_f1_scorer_spec_witness :
    accuracy_f1_scorer
        (fun _ _ _ => [("accuracy", 3 / 4)]) (fun _ _ _ => [("f1", 3 / 5)])
        ([1, 0, 1, 1] : List ℤ) ([] : List ℚ) ([1, 0, 0, 1] : List ℤ) =
      Except.ok (dictSet (dictUpdate [("accuracy", 3 / 4)] [("f1", 3 / 5)])
        "accuracy_f1" ((3 / 4 + 3 / 5) / 2)) ∧
    (∀ k, dictGet (dictUpdate [("accuracy", 3 / 4)] [("f1", 3 / 5)]) k =
      Option.orElse (dictGet [("f1", 3 / 5)] k)
        (fun _ => dictGet [("accuracy", 3 / 4)] k)) :=
  accuracy_f1_scorer_spec (fun _ _ _ => [("accuracy", 3 / 4)])
    (fun _ _ _ => [("f1", 3 / 5)]) [1, 0, 1, 1] [] [1, 0, 0, 1] (3 / 4) (3 / 5)
    (by decide) (by decide) rfl rfl

end Emmental
